import Mathlib

/-!
Shallow embedding of the integer vector library in `src/int.rs`
(types `Vec2u`, `Vec2i`, `Vec3u`, `Vec3i`, `Vec4u`, `Vec4i` over the
element kinds `u32` and `i32`).

Element kinds are modelled as mathematical integers reduced explicitly
modulo `2^32`:
  - `u32` values are `Nat`, arithmetic results reduced by `% 4294967296`
    (release-mode wraparound semantics);
  - `i32` values are `Int`, arithmetic results reduced into the interval
    `[-2147483648, 2147483648)` by `iwrap` (two's-complement wraparound);
  - division is Rust division: truncating, and fatal (modelled as `none`)
    on a zero divisor, or for `i32` on the overflowing `(-2^31).tdiv (-1)`.
-/

/-- Wraparound reduction of an unsigned 32-bit result. -/
def uwrap (n : Nat) : Nat := n % 4294967296

/-- u32 wrapping addition. -/
def uadd (a b : Nat) : Nat := uwrap (a + b)

/-- u32 wrapping multiplication. -/
def umul (a b : Nat) : Nat := uwrap (a * b)

/-- u32 division: Rust `a / b`, fatal (`none`) when `b = 0`. -/
def udiv (a b : Nat) : Option Nat := if b = 0 then none else some (a / b)

/-- Embedding of `impl MulAdd for u32`: `fn mul_add(self, a, b) { (self * a) + b }`. -/
def u32_mul_add (s a b : Nat) : Nat := uadd (umul s a) b

/-- Two's-complement wraparound reduction of a signed 32-bit result into
the interval `[-2147483648, 2147483648)`. -/
def iwrap (n : Int) : Int := (n + 2147483648) % 4294967296 - 2147483648

/-- i32 wrapping addition. -/
def iadd (a b : Int) : Int := iwrap (a + b)

/-- i32 wrapping multiplication. -/
def imul (a b : Int) : Int := iwrap (a * b)

/-- i32 wrapping negation. -/
def ineg (a : Int) : Int := iwrap (-a)

/-- i32 division: Rust `a / b` truncates toward zero and is fatal
(`none`) when `b = 0` or on the overflow case `a = -2^31, b = -1`. -/
def idiv (a b : Int) : Option Int :=
  if b = 0 ∨ (a = -2147483648 ∧ b = -1) then none else some (a.tdiv b)

/-- Embedding of `impl MulAdd for i32`: `fn mul_add(self, a, b) { (self * a) + b }`. -/
def i32_mul_add (s a b : Int) : Int := iadd (imul s a) b

/-- Rust struct `Vec2u { x: u32, y: u32 }`. -/
structure Vec2u where
  x : Nat
  y : Nat
  deriving DecidableEq

/-- Rust struct `Vec2i { x: i32, y: i32 }`. -/
structure Vec2i where
  x : Int
  y : Int
  deriving DecidableEq

/-- Rust struct `Vec3u { x: u32, y: u32, z: u32 }`. -/
structure Vec3u where
  x : Nat
  y : Nat
  z : Nat
  deriving DecidableEq

/-- Rust struct `Vec3i { x: i32, y: i32, z: i32 }`. -/
structure Vec3i where
  x : Int
  y : Int
  z : Int
  deriving DecidableEq

/-- Rust struct `Vec4u { x: u32, y: u32, z: u32, w: u32 }`. -/
structure Vec4u where
  x : Nat
  y : Nat
  z : Nat
  w : Nat
  deriving DecidableEq

/-- Rust struct `Vec4i { x: i32, y: i32, z: i32, w: i32 }`. -/
structure Vec4i where
  x : Int
  y : Int
  z : Int
  w : Int
  deriving DecidableEq

/-- `Vec2u::new`. -/
def Vec2u.new (x y : Nat) : Vec2u := ⟨x, y⟩

/-- `Vec2i::new`. -/
def Vec2i.new (x y : Int) : Vec2i := ⟨x, y⟩

/-- `Vec3u::new`. -/
def Vec3u.new (x y z : Nat) : Vec3u := ⟨x, y, z⟩

/-- `Vec3i::new`. -/
def Vec3i.new (x y z : Int) : Vec3i := ⟨x, y, z⟩

/-- `Vec4u::new`. -/
def Vec4u.new (x y z w : Nat) : Vec4u := ⟨x, y, z, w⟩

/-- `Vec4i::new`. -/
def Vec4i.new (x y z w : Int) : Vec4i := ⟨x, y, z, w⟩

/-- `Vec2u::unit_x`. -/
def Vec2u.unit_x : Vec2u := ⟨1, 0⟩

/-- `Vec2u::unit_y`. -/
def Vec2u.unit_y : Vec2u := ⟨0, 1⟩

/-- `Vec2i::unit_x`. -/
def Vec2i.unit_x : Vec2i := ⟨1, 0⟩

/-- `Vec2i::unit_y`. -/
def Vec2i.unit_y : Vec2i := ⟨0, 1⟩

/-- `Vec3u::unit_x`. -/
def Vec3u.unit_x : Vec3u := ⟨1, 0, 0⟩

/-- `Vec3u::unit_y`. -/
def Vec3u.unit_y : Vec3u := ⟨0, 1, 0⟩

/-- `Vec3u::unit_z`. -/
def Vec3u.unit_z : Vec3u := ⟨0, 0, 1⟩

/-- `Vec3i::unit_x`. -/
def Vec3i.unit_x : Vec3i := ⟨1, 0, 0⟩

/-- `Vec3i::unit_y`. -/
def Vec3i.unit_y : Vec3i := ⟨0, 1, 0⟩

/-- `Vec3i::unit_z`. -/
def Vec3i.unit_z : Vec3i := ⟨0, 0, 1⟩

/-- `impl From<Vec3u> for Vec2u`: drop `z`. -/
def Vec2u.fromVec3 (v : Vec3u) : Vec2u := ⟨v.x, v.y⟩

/-- `impl From<Vec3i> for Vec2i`: drop `z`. -/
def Vec2i.fromVec3 (v : Vec3i) : Vec2i := ⟨v.x, v.y⟩

/-- `impl From<Vec4u> for Vec3u`: drop `w`. -/
def Vec3u.fromVec4 (v : Vec4u) : Vec3u := ⟨v.x, v.y, v.z⟩

/-- `impl From<Vec4i> for Vec3i`: drop `w`. -/
def Vec3i.fromVec4 (v : Vec4i) : Vec3i := ⟨v.x, v.y, v.z⟩

/-- `impl From<Vec3u> for Vec4u`: append `w = 0`. -/
def Vec4u.fromVec3 (v : Vec3u) : Vec4u := ⟨v.x, v.y, v.z, 0⟩

/-- `impl From<Vec3i> for Vec4i`: append `w = 0`. -/
def Vec4i.fromVec3 (v : Vec3i) : Vec4i := ⟨v.x, v.y, v.z, 0⟩

/-- `Vec2u::into_homogeneous_point`: `Vec3u { x, y, z: 1 }`. -/
def Vec2u.into_homogeneous_point (v : Vec2u) : Vec3u := ⟨v.x, v.y, 1⟩

/-- `Vec2u::into_homogeneous_vector`: `Vec3u { x, y, z: 0 }`. -/
def Vec2u.into_homogeneous_vector (v : Vec2u) : Vec3u := ⟨v.x, v.y, 0⟩

/-- `Vec2u::from_homogeneous_point`: `Self { x: v.x / v.z, y: v.y / v.z }`,
fatal (`none`) when a division is fatal. -/
def Vec2u.from_homogeneous_point (v : Vec3u) : Option Vec2u :=
  match udiv v.x v.z, udiv v.y v.z with
  | some a, some b => some ⟨a, b⟩
  | _, _ => none

/-- `Vec2u::from_homogeneous_vector`: `v.into()`, dropping `z`. -/
def Vec2u.from_homogeneous_vector (v : Vec3u) : Vec2u := Vec2u.fromVec3 v

/-- `Vec2i::into_homogeneous_point`. -/
def Vec2i.into_homogeneous_point (v : Vec2i) : Vec3i := ⟨v.x, v.y, 1⟩

/-- `Vec2i::into_homogeneous_vector`. -/
def Vec2i.into_homogeneous_vector (v : Vec2i) : Vec3i := ⟨v.x, v.y, 0⟩

/-- `Vec2i::from_homogeneous_point`: componentwise `v.x / v.z`, `v.y / v.z`. -/
def Vec2i.from_homogeneous_point (v : Vec3i) : Option Vec2i :=
  match idiv v.x v.z, idiv v.y v.z with
  | some a, some b => some ⟨a, b⟩
  | _, _ => none

/-- `Vec2i::from_homogeneous_vector`. -/
def Vec2i.from_homogeneous_vector (v : Vec3i) : Vec2i := Vec2i.fromVec3 v

/-- `Vec3u::into_homogeneous_point`: `Vec4u { x, y, z, w: 1 }`. -/
def Vec3u.into_homogeneous_point (v : Vec3u) : Vec4u := ⟨v.x, v.y, v.z, 1⟩

/-- `Vec3u::into_homogeneous_vector`: `Vec4u { x, y, z, w: 0 }`. -/
def Vec3u.into_homogeneous_vector (v : Vec3u) : Vec4u := ⟨v.x, v.y, v.z, 0⟩

/-- `Vec3u::from_homogeneous_point`: componentwise division by `v.w`. -/
def Vec3u.from_homogeneous_point (v : Vec4u) : Option Vec3u :=
  match udiv v.x v.w, udiv v.y v.w, udiv v.z v.w with
  | some a, some b, some c => some ⟨a, b, c⟩
  | _, _, _ => none

/-- `Vec3u::from_homogeneous_vector`: `v.into()`, dropping `w`. -/
def Vec3u.from_homogeneous_vector (v : Vec4u) : Vec3u := Vec3u.fromVec4 v

/-- `Vec3i::into_homogeneous_point`. -/
def Vec3i.into_homogeneous_point (v : Vec3i) : Vec4i := ⟨v.x, v.y, v.z, 1⟩

/-- `Vec3i::into_homogeneous_vector`. -/
def Vec3i.into_homogeneous_vector (v : Vec3i) : Vec4i := ⟨v.x, v.y, v.z, 0⟩

/-- `Vec3i::from_homogeneous_point`: componentwise division by `v.w`. -/
def Vec3i.from_homogeneous_point (v : Vec4i) : Option Vec3i :=
  match idiv v.x v.w, idiv v.y v.w, idiv v.z v.w with
  | some a, some b, some c => some ⟨a, b, c⟩
  | _, _, _ => none

/-- `Vec3i::from_homogeneous_vector`. -/
def Vec3i.from_homogeneous_vector (v : Vec4i) : Vec3i := Vec3i.fromVec4 v

/-- `Vec3u::xyzw`: `Vec4u::new(x, y, z, 0)`. -/
def Vec3u.xyzw (v : Vec3u) : Vec4u := Vec4u.new v.x v.y v.z 0

/-- `Vec3i::xyzw`: `Vec4i::new(x, y, z, 0)`. -/
def Vec3i.xyzw (v : Vec3i) : Vec4i := Vec4i.new v.x v.y v.z 0

/-- `Vec2u::dot`: `self.x.mul_add(other.x, self.y * other.y)`. -/
def Vec2u.dot (v o : Vec2u) : Nat := u32_mul_add v.x o.x (umul v.y o.y)

/-- `Vec2i::dot`. -/
def Vec2i.dot (v o : Vec2i) : Int := i32_mul_add v.x o.x (imul v.y o.y)

/-- `Vec3u::dot`: `x.mul_add(ox, y.mul_add(oy, z * oz))`. -/
def Vec3u.dot (v o : Vec3u) : Nat :=
  u32_mul_add v.x o.x (u32_mul_add v.y o.y (umul v.z o.z))

/-- `Vec3i::dot`. -/
def Vec3i.dot (v o : Vec3i) : Int :=
  i32_mul_add v.x o.x (i32_mul_add v.y o.y (imul v.z o.z))

/-- `Vec4u::dot`: `x.mul_add(ox, y.mul_add(oy, z.mul_add(oz, w * ow)))`. -/
def Vec4u.dot (v o : Vec4u) : Nat :=
  u32_mul_add v.x o.x (u32_mul_add v.y o.y (u32_mul_add v.z o.z (umul v.w o.w)))

/-- `Vec4i::dot`. -/
def Vec4i.dot (v o : Vec4i) : Int :=
  i32_mul_add v.x o.x (i32_mul_add v.y o.y (i32_mul_add v.z o.z (imul v.w o.w)))

/-- `Vec3i::cross`: componentwise `self.y.mul_add(other.z, -(self.z) * other.y)`
and its two rotations. -/
def Vec3i.cross (a b : Vec3i) : Vec3i :=
  Vec3i.new
    (i32_mul_add a.y b.z (imul (ineg a.z) b.y))
    (i32_mul_add a.z b.x (imul (ineg a.x) b.z))
    (i32_mul_add a.x b.y (imul (ineg a.y) b.x))

/-- `Vec2u::abs`: `Self::new(self.x, self.y)`. -/
def Vec2u.abs (v : Vec2u) : Vec2u := Vec2u.new v.x v.y

/-- `Vec2i::abs`: `Self::new(self.x, self.y)`. -/
def Vec2i.abs (v : Vec2i) : Vec2i := Vec2i.new v.x v.y

/-- `Vec3u::abs`: `Self::new(self.x, self.y, self.z)`. -/
def Vec3u.abs (v : Vec3u) : Vec3u := Vec3u.new v.x v.y v.z

/-- `Vec3i::abs`: `Self::new(self.x, self.y, self.z)`. -/
def Vec3i.abs (v : Vec3i) : Vec3i := Vec3i.new v.x v.y v.z

/-- `impl Mul<u32> for Vec2u` (vector times scalar, componentwise). -/
def Vec2u.mulScalar (v : Vec2u) (s : Nat) : Vec2u := ⟨umul v.x s, umul v.y s⟩

/-- `impl Mul<i32> for Vec2i`. -/
def Vec2i.mulScalar (v : Vec2i) (s : Int) : Vec2i := ⟨imul v.x s, imul v.y s⟩

/-- `impl Mul<u32> for Vec3u`. -/
def Vec3u.mulScalar (v : Vec3u) (s : Nat) : Vec3u :=
  ⟨umul v.x s, umul v.y s, umul v.z s⟩

/-- `impl Mul<i32> for Vec3i`. -/
def Vec3i.mulScalar (v : Vec3i) (s : Int) : Vec3i :=
  ⟨imul v.x s, imul v.y s, imul v.z s⟩

/-- `impl Mul<u32> for Vec4u`. -/
def Vec4u.mulScalar (v : Vec4u) (s : Nat) : Vec4u :=
  ⟨umul v.x s, umul v.y s, umul v.z s, umul v.w s⟩

/-- `impl Mul<i32> for Vec4i`. -/
def Vec4i.mulScalar (v : Vec4i) (s : Int) : Vec4i :=
  ⟨imul v.x s, imul v.y s, imul v.z s, imul v.w s⟩

/-- `impl Div<u32> for Vec2u` (vector divided by scalar, componentwise). -/
def Vec2u.divScalar (v : Vec2u) (s : Nat) : Option Vec2u :=
  match udiv v.x s, udiv v.y s with
  | some a, some b => some ⟨a, b⟩
  | _, _ => none

/-- `impl Div<i32> for Vec2i`. -/
def Vec2i.divScalar (v : Vec2i) (s : Int) : Option Vec2i :=
  match idiv v.x s, idiv v.y s with
  | some a, some b => some ⟨a, b⟩
  | _, _ => none

/-- `impl Div<u32> for Vec3u`. -/
def Vec3u.divScalar (v : Vec3u) (s : Nat) : Option Vec3u :=
  match udiv v.x s, udiv v.y s, udiv v.z s with
  | some a, some b, some c => some ⟨a, b, c⟩
  | _, _, _ => none

/-- `impl Div<i32> for Vec3i`. -/
def Vec3i.divScalar (v : Vec3i) (s : Int) : Option Vec3i :=
  match idiv v.x s, idiv v.y s, idiv v.z s with
  | some a, some b, some c => some ⟨a, b, c⟩
  | _, _, _ => none

/-- `impl Div<u32> for Vec4u`. -/
def Vec4u.divScalar (v : Vec4u) (s : Nat) : Option Vec4u :=
  match udiv v.x s, udiv v.y s, udiv v.z s, udiv v.w s with
  | some a, some b, some c, some d => some ⟨a, b, c, d⟩
  | _, _, _, _ => none

/-- `impl Div<i32> for Vec4i`. -/
def Vec4i.divScalar (v : Vec4i) (s : Int) : Option Vec4i :=
  match idiv v.x s, idiv v.y s, idiv v.z s, idiv v.w s with
  | some a, some b, some c, some d => some ⟨a, b, c, d⟩
  | _, _, _, _ => none

/-- `impl Index<usize> for Vec2u`: positions 0, 1 are the components in
declared order, any other position hits the fatal branch (`none`). -/
def Vec2u.index (v : Vec2u) (i : Nat) : Option Nat :=
  match i with
  | 0 => some v.x
  | 1 => some v.y
  | _ => none

/-- `impl IndexMut<usize> for Vec2u`, modelled as writing the value `a`
through the returned mutable reference. -/
def Vec2u.indexSet (v : Vec2u) (i : Nat) (a : Nat) : Option Vec2u :=
  match i with
  | 0 => some { v with x := a }
  | 1 => some { v with y := a }
  | _ => none

/-- `impl Index<usize> for Vec2i`. -/
def Vec2i.index (v : Vec2i) (i : Nat) : Option Int :=
  match i with
  | 0 => some v.x
  | 1 => some v.y
  | _ => none

/-- `impl IndexMut<usize> for Vec2i`. -/
def Vec2i.indexSet (v : Vec2i) (i : Nat) (a : Int) : Option Vec2i :=
  match i with
  | 0 => some { v with x := a }
  | 1 => some { v with y := a }
  | _ => none

/-- `impl Index<usize> for Vec3u`. -/
def Vec3u.index (v : Vec3u) (i : Nat) : Option Nat :=
  match i with
  | 0 => some v.x
  | 1 => some v.y
  | 2 => some v.z
  | _ => none

/-- `impl IndexMut<usize> for Vec3u`. -/
def Vec3u.indexSet (v : Vec3u) (i : Nat) (a : Nat) : Option Vec3u :=
  match i with
  | 0 => some { v with x := a }
  | 1 => some { v with y := a }
  | 2 => some { v with z := a }
  | _ => none

/-- `impl Index<usize> for Vec3i`. -/
def Vec3i.index (v : Vec3i) (i : Nat) : Option Int :=
  match i with
  | 0 => some v.x
  | 1 => some v.y
  | 2 => some v.z
  | _ => none

/-- `impl IndexMut<usize> for Vec3i`. -/
def Vec3i.indexSet (v : Vec3i) (i : Nat) (a : Int) : Option Vec3i :=
  match i with
  | 0 => some { v with x := a }
  | 1 => some { v with y := a }
  | 2 => some { v with z := a }
  | _ => none

/-- `impl Index<usize> for Vec4u`. -/
def Vec4u.index (v : Vec4u) (i : Nat) : Option Nat :=
  match i with
  | 0 => some v.x
  | 1 => some v.y
  | 2 => some v.z
  | 3 => some v.w
  | _ => none

/-- `impl IndexMut<usize> for Vec4u`. -/
def Vec4u.indexSet (v : Vec4u) (i : Nat) (a : Nat) : Option Vec4u :=
  match i with
  | 0 => some { v with x := a }
  | 1 => some { v with y := a }
  | 2 => some { v with z := a }
  | 3 => some { v with w := a }
  | _ => none

/-- `impl Index<usize> for Vec4i`. -/
def Vec4i.index (v : Vec4i) (i : Nat) : Option Int :=
  match i with
  | 0 => some v.x
  | 1 => some v.y
  | 2 => some v.z
  | 3 => some v.w
  | _ => none

/-- `impl IndexMut<usize> for Vec4i`. -/
def Vec4i.indexSet (v : Vec4i) (i : Nat) (a : Int) : Option Vec4i :=
  match i with
  | 0 => some { v with x := a }
  | 1 => some { v with y := a }
  | 2 => some { v with z := a }
  | 3 => some { v with w := a }
  | _ => none

/-!
Helper lemmas about the modular reductions. `uwrap`/`iwrap` absorb inner
reductions, so any composition of the wrapping operations equals a single
reduction of the corresponding exact integer polynomial.
-/

theorem uwrap_wrap (a : Nat) : uwrap (uwrap a) = uwrap a := by
  unfold uwrap; omega

theorem uwrap_add_left (a b : Nat) : uwrap (uwrap a + b) = uwrap (a + b) := by
  unfold uwrap; omega

theorem uwrap_add_right (a b : Nat) : uwrap (a + uwrap b) = uwrap (a + b) := by
  unfold uwrap; omega

theorem uwrap_mul_left (a b : Nat) : uwrap (uwrap a * b) = uwrap (a * b) := by
  unfold uwrap
  rw [Nat.mul_mod, Nat.mod_mod_of_dvd _ dvd_rfl, ← Nat.mul_mod]

theorem uwrap_mul_right (a b : Nat) : uwrap (a * uwrap b) = uwrap (a * b) := by
  unfold uwrap
  rw [Nat.mul_mod, Nat.mod_mod_of_dvd _ dvd_rfl, ← Nat.mul_mod]

theorem uwrap_eq_self {a : Nat} (h : a < 4294967296) : uwrap a = a := by
  unfold uwrap; omega

theorem iwrap_congr {a b : Int} (h : a % 4294967296 = b % 4294967296) :
    iwrap a = iwrap b := by
  unfold iwrap; omega

theorem iwrap_emod (a : Int) : iwrap a % 4294967296 = a % 4294967296 := by
  unfold iwrap; omega

theorem iwrap_wrap (a : Int) : iwrap (iwrap a) = iwrap a := by
  unfold iwrap; omega

theorem iwrap_add_left (a b : Int) : iwrap (iwrap a + b) = iwrap (a + b) := by
  unfold iwrap; omega

theorem iwrap_add_right (a b : Int) : iwrap (a + iwrap b) = iwrap (a + b) := by
  unfold iwrap; omega

theorem iwrap_mul_left (a b : Int) : iwrap (iwrap a * b) = iwrap (a * b) := by
  apply iwrap_congr
  rw [Int.mul_emod, iwrap_emod, ← Int.mul_emod]

theorem iwrap_mul_right (a b : Int) : iwrap (a * iwrap b) = iwrap (a * b) := by
  apply iwrap_congr
  rw [Int.mul_emod, iwrap_emod, ← Int.mul_emod]

theorem iwrap_neg_wrap (a : Int) : iwrap (-iwrap a) = iwrap (-a) := by
  unfold iwrap; omega

theorem iwrap_eq_self {a : Int} (h1 : -2147483648 ≤ a) (h2 : a < 2147483648) :
    iwrap a = a := by
  unfold iwrap; omega

/-- C1: for every 2- and 3-component vector of either element kind,
widening then narrowing round-trips exactly: narrowing the homogeneous
vector drops the appended 0, and narrowing the homogeneous point divides
by the appended 1, recovering the original vector. -/
theorem homogeneous_round_trip :
    (∀ v : Vec2u,
      Vec2u.from_homogeneous_vector (Vec2u.into_homogeneous_vector v) = v ∧
      Vec2u.from_homogeneous_point (Vec2u.into_homogeneous_point v) = some v) ∧
    (∀ v : Vec2i,
      Vec2i.from_homogeneous_vector (Vec2i.into_homogeneous_vector v) = v ∧
      Vec2i.from_homogeneous_point (Vec2i.into_homogeneous_point v) = some v) ∧
    (∀ v : Vec3u,
      Vec3u.from_homogeneous_vector (Vec3u.into_homogeneous_vector v) = v ∧
      Vec3u.from_homogeneous_point (Vec3u.into_homogeneous_point v) = some v) ∧
    (∀ v : Vec3i,
      Vec3i.from_homogeneous_vector (Vec3i.into_homogeneous_vector v) = v ∧
      Vec3i.from_homogeneous_point (Vec3i.into_homogeneous_point v) = some v) := by
  refine ⟨fun v => ⟨rfl, ?_⟩, fun v => ⟨rfl, ?_⟩, fun v => ⟨rfl, ?_⟩,
    fun v => ⟨rfl, ?_⟩⟩
  · obtain ⟨x, y⟩ := v
    simp [Vec2u.into_homogeneous_point, Vec2u.from_homogeneous_point, udiv]
  · obtain ⟨x, y⟩ := v
    simp [Vec2i.into_homogeneous_point, Vec2i.from_homogeneous_point, idiv,
      Int.tdiv_one]
  · obtain ⟨x, y, z⟩ := v
    simp [Vec3u.into_homogeneous_point, Vec3u.from_homogeneous_point, udiv]
  · obtain ⟨x, y, z⟩ := v
    simp [Vec3i.into_homogeneous_point, Vec3i.from_homogeneous_point, idiv,
      Int.tdiv_one]

/-- C4: `abs` reconstructs exactly the same component values for every
family that defines it, including the signed families, where negative
components are not negated. -/
theorem abs_identity :
    (∀ v : Vec2u, v.abs = v) ∧ (∀ v : Vec2i, v.abs = v) ∧
    (∀ v : Vec3u, v.abs = v) ∧ (∀ v : Vec3i, v.abs = v) :=
  ⟨fun _ => rfl, fun _ => rfl, fun _ => rfl, fun _ => rfl⟩

/-- C9: `Vec3i::unit_x().cross(Vec3i::unit_y()) == Vec3i::unit_z()` for the
signed 3-component family. -/
theorem unit_cross_scenario :
    Vec3i.unit_x.cross Vec3i.unit_y = Vec3i.unit_z := by decide

/-- C10: for 3-component vectors of either element kind, the plain
widening conversions to 4 components (`From<Vec3> for Vec4` and `xyzw`)
produce exactly the same result as `into_homogeneous_vector`: all append
a 0 last component and keep x, y, z unchanged. -/
theorem widening_equivalence :
    (∀ v : Vec3u, Vec4u.fromVec3 v = v.into_homogeneous_vector ∧
      v.xyzw = v.into_homogeneous_vector) ∧
    (∀ v : Vec3i, Vec4i.fromVec3 v = v.into_homogeneous_vector ∧
      v.xyzw = v.into_homogeneous_vector) :=
  ⟨fun _ => ⟨rfl, rfl⟩, fun _ => ⟨rfl, rfl⟩⟩

/-- C5: for all signed 3-component vectors `a` and `b`, `a.cross b` equals
the componentwise (wrapping) negation of `b.cross a`, under i32
two's-complement wraparound arithmetic. -/
theorem cross_anti_comm (a b : Vec3i) :
    a.cross b =
      Vec3i.new (ineg ((b.cross a).x)) (ineg ((b.cross a).y))
        (ineg ((b.cross a).z)) := by
  obtain ⟨ax, ay, az⟩ := a
  obtain ⟨bx, by', bz⟩ := b
  simp only [Vec3i.cross, Vec3i.new, Vec3i.mk.injEq]
  refine ⟨?_, ?_, ?_⟩ <;>
  · simp only [i32_mul_add, iadd, imul, ineg, iwrap_mul_left, iwrap_mul_right,
      iwrap_add_left, iwrap_add_right, iwrap_neg_wrap]
    exact congrArg iwrap (by ring)

/-- C6: `dot` is commutative for every family and element kind, under the
element kind's wraparound arithmetic. -/
theorem dot_comm :
    (∀ a b : Vec2u, a.dot b = b.dot a) ∧ (∀ a b : Vec2i, a.dot b = b.dot a) ∧
    (∀ a b : Vec3u, a.dot b = b.dot a) ∧ (∀ a b : Vec3i, a.dot b = b.dot a) ∧
    (∀ a b : Vec4u, a.dot b = b.dot a) ∧ (∀ a b : Vec4i, a.dot b = b.dot a) := by
  refine ⟨fun a b => ?_, fun a b => ?_, fun a b => ?_, fun a b => ?_,
    fun a b => ?_, fun a b => ?_⟩
  · simp only [Vec2u.dot, u32_mul_add, uadd, umul, uwrap_add_left,
      uwrap_add_right]
    exact congrArg uwrap (by ring)
  · simp only [Vec2i.dot, i32_mul_add, iadd, imul, iwrap_add_left,
      iwrap_add_right]
    exact congrArg iwrap (by ring)
  · simp only [Vec3u.dot, u32_mul_add, uadd, umul, uwrap_add_left,
      uwrap_add_right]
    exact congrArg uwrap (by ring)
  · simp only [Vec3i.dot, i32_mul_add, iadd, imul, iwrap_add_left,
      iwrap_add_right]
    exact congrArg iwrap (by ring)
  · simp only [Vec4u.dot, u32_mul_add, uadd, umul, uwrap_add_left,
      uwrap_add_right]
    exact congrArg uwrap (by ring)
  · simp only [Vec4i.dot, i32_mul_add, iadd, imul, iwrap_add_left,
      iwrap_add_right]
    exact congrArg iwrap (by ring)

/-- C7: the fused multiply-add primitive computes exactly `self * a + b`
in the element kind's wraparound arithmetic (a single reduction of the
exact integer result), and the 3-component `dot` is the strictly
left-to-right accumulation `x*ox + (y*oy + z*oz)` through nested
`mul_add` calls. -/
theorem mul_add_exact :
    (∀ s a b : Nat, u32_mul_add s a b = uwrap (s * a + b)) ∧
    (∀ s a b : Int, i32_mul_add s a b = iwrap (s * a + b)) ∧
    (∀ v o : Vec3u,
      v.dot o = u32_mul_add v.x o.x (u32_mul_add v.y o.y (umul v.z o.z)) ∧
      v.dot o = uwrap (v.x * o.x + (v.y * o.y + v.z * o.z))) ∧
    (∀ v o : Vec3i,
      v.dot o = i32_mul_add v.x o.x (i32_mul_add v.y o.y (imul v.z o.z)) ∧
      v.dot o = iwrap (v.x * o.x + (v.y * o.y + v.z * o.z))) := by
  refine ⟨fun s a b => ?_, fun s a b => ?_, fun v o => ⟨rfl, ?_⟩,
    fun v o => ⟨rfl, ?_⟩⟩
  · simp only [u32_mul_add, uadd, umul, uwrap_add_left]
  · simp only [i32_mul_add, iadd, imul, iwrap_add_left]
  · simp only [Vec3u.dot, u32_mul_add, uadd, umul, uwrap_add_left,
      uwrap_add_right]
  · simp only [Vec3i.dot, i32_mul_add, iadd, imul, iwrap_add_left,
      iwrap_add_right]

theorem vec2u_index_oob (v : Vec2u) {i : Nat} (h : 2 ≤ i) (a : Nat) :
    v.index i = none ∧ v.indexSet i a = none := by
  obtain ⟨n, rfl⟩ : ∃ n, i = n + 2 := ⟨i - 2, by omega⟩
  exact ⟨rfl, rfl⟩

theorem vec2i_index_oob (v : Vec2i) {i : Nat} (h : 2 ≤ i) (a : Int) :
    v.index i = none ∧ v.indexSet i a = none := by
  obtain ⟨n, rfl⟩ : ∃ n, i = n + 2 := ⟨i - 2, by omega⟩
  exact ⟨rfl, rfl⟩

theorem vec3u_index_oob (v : Vec3u) {i : Nat} (h : 3 ≤ i) (a : Nat) :
    v.index i = none ∧ v.indexSet i a = none := by
  obtain ⟨n, rfl⟩ : ∃ n, i = n + 3 := ⟨i - 3, by omega⟩
  exact ⟨rfl, rfl⟩

theorem vec3i_index_oob (v : Vec3i) {i : Nat} (h : 3 ≤ i) (a : Int) :
    v.index i = none ∧ v.indexSet i a = none := by
  obtain ⟨n, rfl⟩ : ∃ n, i = n + 3 := ⟨i - 3, by omega⟩
  exact ⟨rfl, rfl⟩

theorem vec4u_index_oob (v : Vec4u) {i : Nat} (h : 4 ≤ i) (a : Nat) :
    v.index i = none ∧ v.indexSet i a = none := by
  obtain ⟨n, rfl⟩ : ∃ n, i = n + 4 := ⟨i - 4, by omega⟩
  exact ⟨rfl, rfl⟩

theorem vec4i_index_oob (v : Vec4i) {i : Nat} (h : 4 ≤ i) (a : Int) :
    v.index i = none ∧ v.indexSet i a = none := by
  obtain ⟨n, rfl⟩ : ∃ n, i = n + 4 := ⟨i - 4, by omega⟩
  exact ⟨rfl, rfl⟩

/-- C8: for every family and element kind, indexing below the component
count yields the component at that position in declared order
(0 is x, 1 is y, 2 is z, 3 is w) for both read and mutable (write)
indexing, and indexing at the component count or beyond is fatal
(`none`) for both. -/
theorem index_bounds :
    ((∀ v : Vec2u, v.index 0 = some v.x ∧ v.index 1 = some v.y) ∧
     (∀ (v : Vec2u) (a : Nat),
       v.indexSet 0 a = some ⟨a, v.y⟩ ∧ v.indexSet 1 a = some ⟨v.x, a⟩) ∧
     (∀ (v : Vec2u) (i : Nat), 2 ≤ i → ∀ a : Nat,
       v.index i = none ∧ v.indexSet i a = none)) ∧
    ((∀ v : Vec2i, v.index 0 = some v.x ∧ v.index 1 = some v.y) ∧
     (∀ (v : Vec2i) (a : Int),
       v.indexSet 0 a = some ⟨a, v.y⟩ ∧ v.indexSet 1 a = some ⟨v.x, a⟩) ∧
     (∀ (v : Vec2i) (i : Nat), 2 ≤ i → ∀ a : Int,
       v.index i = none ∧ v.indexSet i a = none)) ∧
    ((∀ v : Vec3u, v.index 0 = some v.x ∧ v.index 1 = some v.y ∧
       v.index 2 = some v.z) ∧
     (∀ (v : Vec3u) (a : Nat), v.indexSet 0 a = some ⟨a, v.y, v.z⟩ ∧
       v.indexSet 1 a = some ⟨v.x, a, v.z⟩ ∧
       v.indexSet 2 a = some ⟨v.x, v.y, a⟩) ∧
     (∀ (v : Vec3u) (i : Nat), 3 ≤ i → ∀ a : Nat,
       v.index i = none ∧ v.indexSet i a = none)) ∧
    ((∀ v : Vec3i, v.index 0 = some v.x ∧ v.index 1 = some v.y ∧
       v.index 2 = some v.z) ∧
     (∀ (v : Vec3i) (a : Int), v.indexSet 0 a = some ⟨a, v.y, v.z⟩ ∧
       v.indexSet 1 a = some ⟨v.x, a, v.z⟩ ∧
       v.indexSet 2 a = some ⟨v.x, v.y, a⟩) ∧
     (∀ (v : Vec3i) (i : Nat), 3 ≤ i → ∀ a : Int,
       v.index i = none ∧ v.indexSet i a = none)) ∧
    ((∀ v : Vec4u, v.index 0 = some v.x ∧ v.index 1 = some v.y ∧
       v.index 2 = some v.z ∧ v.index 3 = some v.w) ∧
     (∀ (v : Vec4u) (a : Nat), v.indexSet 0 a = some ⟨a, v.y, v.z, v.w⟩ ∧
       v.indexSet 1 a = some ⟨v.x, a, v.z, v.w⟩ ∧
       v.indexSet 2 a = some ⟨v.x, v.y, a, v.w⟩ ∧
       v.indexSet 3 a = some ⟨v.x, v.y, v.z, a⟩) ∧
     (∀ (v : Vec4u) (i : Nat), 4 ≤ i → ∀ a : Nat,
       v.index i = none ∧ v.indexSet i a = none)) ∧
    ((∀ v : Vec4i, v.index 0 = some v.x ∧ v.index 1 = some v.y ∧
       v.index 2 = some v.z ∧ v.index 3 = some v.w) ∧
     (∀ (v : Vec4i) (a : Int), v.indexSet 0 a = some ⟨a, v.y, v.z, v.w⟩ ∧
       v.indexSet 1 a = some ⟨v.x, a, v.z, v.w⟩ ∧
       v.indexSet 2 a = some ⟨v.x, v.y, a, v.w⟩ ∧
       v.indexSet 3 a = some ⟨v.x, v.y, v.z, a⟩) ∧
     (∀ (v : Vec4i) (i : Nat), 4 ≤ i → ∀ a : Int,
       v.index i = none ∧ v.indexSet i a = none)) := by
  refine ⟨⟨fun v => ⟨rfl, rfl⟩, fun v a => ⟨rfl, rfl⟩,
      fun v i h a => vec2u_index_oob v h a⟩,
    ⟨fun v => ⟨rfl, rfl⟩, fun v a => ⟨rfl, rfl⟩,
      fun v i h a => vec2i_index_oob v h a⟩,
    ⟨fun v => ⟨rfl, rfl, rfl⟩, fun v a => ⟨rfl, rfl, rfl⟩,
      fun v i h a => vec3u_index_oob v h a⟩,
    ⟨fun v => ⟨rfl, rfl, rfl⟩, fun v a => ⟨rfl, rfl, rfl⟩,
      fun v i h a => vec3i_index_oob v h a⟩,
    ⟨fun v => ⟨rfl, rfl, rfl, rfl⟩, fun v a => ⟨rfl, rfl, rfl, rfl⟩,
      fun v i h a => vec4u_index_oob v h a⟩,
    ⟨fun v => ⟨rfl, rfl, rfl, rfl⟩, fun v a => ⟨rfl, rfl, rfl, rfl⟩,
      fun v i h a => vec4i_index_oob v h a⟩⟩

/-- Witness for C8: concrete out-of-bounds accesses are fatal. -/
theorem index_bounds_witness :
    (Vec2u.mk 7 8).index 2 = none ∧ (Vec4i.mk 1 2 3 4).indexSet 4 9 = none :=
  ⟨(index_bounds.1.2.2 (Vec2u.mk 7 8) 2 (by omega) 0).1,
   (index_bounds.2.2.2.2.2.2.2 (Vec4i.mk 1 2 3 4) 4 (by omega) 9).2⟩

theorem udiv_some {a b : Nat} (h : b ≠ 0) : udiv a b = some (a / b) := by
  unfold udiv; rw [if_neg h]

theorem udiv_zero (a : Nat) : udiv a 0 = none := rfl

theorem idiv_some {a b : Int} (h0 : b ≠ 0)
    (h1 : ¬(a = -2147483648 ∧ b = -1)) : idiv a b = some (a.tdiv b) := by
  unfold idiv; rw [if_neg (by tauto)]

theorem idiv_zero (a : Int) : idiv a 0 = none := by
  unfold idiv; rw [if_pos (Or.inl rfl)]

theorem idiv_min_neg_one : idiv (-2147483648) (-1) = none := by decide

/-- Counterexample to C2 as stated: the homogeneous component `-1` is
nonzero, yet narrowing `Vec4i { x: -2^31, y: 0, z: 0, w: -1 }` as a
homogeneous point is fatal (i32 division overflow), so no vector of
quotients is returned. -/
theorem from_homogeneous_point_overflow_cex :
    (-1 : Int) ≠ 0 ∧
    Vec3i.from_homogeneous_point (Vec4i.mk (-2147483648) 0 0 (-1)) = none := by
  decide

/-- C2 (amended): narrowing as a homogeneous point divides every retained
component by the last component with truncating division; it is fatal
(`none`) when the last component is zero, and also (signed kinds) when
any retained component is `-2^31` and the last component is `-1`
(division overflow). In particular `Vec4i::new(2,4,6,2)` narrows to
`Vec3i::new(1,2,3)`. -/
theorem from_homogeneous_point_div :
    (∀ v : Vec3u,
      (v.z ≠ 0 →
        Vec2u.from_homogeneous_point v = some (Vec2u.mk (v.x / v.z) (v.y / v.z))) ∧
      (v.z = 0 → Vec2u.from_homogeneous_point v = none)) ∧
    (∀ v : Vec4u,
      (v.w ≠ 0 → Vec3u.from_homogeneous_point v =
        some (Vec3u.mk (v.x / v.w) (v.y / v.w) (v.z / v.w))) ∧
      (v.w = 0 → Vec3u.from_homogeneous_point v = none)) ∧
    (∀ v : Vec3i,
      (v.z ≠ 0 → ¬(v.x = -2147483648 ∧ v.z = -1) →
        ¬(v.y = -2147483648 ∧ v.z = -1) →
        Vec2i.from_homogeneous_point v =
          some (Vec2i.mk (v.x.tdiv v.z) (v.y.tdiv v.z))) ∧
      (v.z = 0 → Vec2i.from_homogeneous_point v = none) ∧
      (v.z = -1 → v.x = -2147483648 ∨ v.y = -2147483648 →
        Vec2i.from_homogeneous_point v = none)) ∧
    (∀ v : Vec4i,
      (v.w ≠ 0 → ¬(v.x = -2147483648 ∧ v.w = -1) →
        ¬(v.y = -2147483648 ∧ v.w = -1) → ¬(v.z = -2147483648 ∧ v.w = -1) →
        Vec3i.from_homogeneous_point v =
          some (Vec3i.mk (v.x.tdiv v.w) (v.y.tdiv v.w) (v.z.tdiv v.w))) ∧
      (v.w = 0 → Vec3i.from_homogeneous_point v = none) ∧
      (v.w = -1 →
        v.x = -2147483648 ∨ v.y = -2147483648 ∨ v.z = -2147483648 →
        Vec3i.from_homogeneous_point v = none)) ∧
    Vec3i.from_homogeneous_point (Vec4i.mk 2 4 6 2) = some (Vec3i.mk 1 2 3) := by
  refine ⟨fun v => ⟨fun h => ?_, fun h => ?_⟩,
    fun v => ⟨fun h => ?_, fun h => ?_⟩,
    fun v => ⟨fun h hx hy => ?_, fun h => ?_, fun hz hor => ?_⟩,
    fun v => ⟨fun h hx hy hz => ?_, fun h => ?_, fun hw hor => ?_⟩,
    by decide⟩
  · unfold Vec2u.from_homogeneous_point
    rw [udiv_some h, udiv_some h]
  · unfold Vec2u.from_homogeneous_point
    rw [h, udiv_zero, udiv_zero]
  · unfold Vec3u.from_homogeneous_point
    rw [udiv_some h, udiv_some h, udiv_some h]
  · unfold Vec3u.from_homogeneous_point
    rw [h, udiv_zero, udiv_zero, udiv_zero]
  · unfold Vec2i.from_homogeneous_point
    rw [idiv_some h hx, idiv_some h hy]
  · unfold Vec2i.from_homogeneous_point
    rw [h, idiv_zero, idiv_zero]
  · unfold Vec2i.from_homogeneous_point
    rcases hor with hx | hy
    · rw [hx, hz, idiv_min_neg_one]
    · rw [hy, hz, idiv_min_neg_one]
      cases idiv v.x (-1) <;> rfl
  · unfold Vec3i.from_homogeneous_point
    rw [idiv_some h hx, idiv_some h hy, idiv_some h hz]
  · unfold Vec3i.from_homogeneous_point
    rw [h, idiv_zero, idiv_zero, idiv_zero]
  · unfold Vec3i.from_homogeneous_point
    rcases hor with hx | hy | hz'
    · rw [hx, hw, idiv_min_neg_one]
    · rw [hy, hw, idiv_min_neg_one]
      cases idiv v.x (-1) <;> rfl
    · rw [hz', hw, idiv_min_neg_one]
      cases idiv v.x (-1) <;> cases idiv v.y (-1) <;> rfl

/-- Witness for C2 (amended): concrete homogeneous-point narrowings, and
a fatal overflow where only the y component is `-2^31`. -/
theorem from_homogeneous_point_div_witness :
    Vec2u.from_homogeneous_point (Vec3u.mk 6 8 2) = some (Vec2u.mk 3 4) ∧
    Vec2i.from_homogeneous_point (Vec3i.mk (-7) 9 2) = some (Vec2i.mk (-3) 4) ∧
    Vec2i.from_homogeneous_point (Vec3i.mk 5 (-2147483648) (-1)) = none :=
  ⟨(from_homogeneous_point_div.1 (Vec3u.mk 6 8 2)).1 (by decide),
   (from_homogeneous_point_div.2.2.1 (Vec3i.mk (-7) 9 2)).1 (by decide)
     (by decide) (by decide),
   (from_homogeneous_point_div.2.2.1 (Vec3i.mk 5 (-2147483648) (-1))).2.2
     (by decide) (Or.inr (by decide))⟩

theorem udiv_umul_cancel {a s : Nat} (hs : s ≠ 0) (h : a * s < 4294967296) :
    udiv (umul a s) s = some a := by
  unfold udiv umul
  rw [uwrap_eq_self h, if_neg hs, Nat.mul_div_cancel _ (Nat.pos_of_ne_zero hs)]

theorem idiv_imul_cancel {a s : Int} (hs : s ≠ 0) (ha : a < 2147483648)
    (h1 : -2147483648 ≤ a * s) (h2 : a * s < 2147483648) :
    idiv (imul a s) s = some a := by
  have hc : ¬(s = 0 ∨ (a * s = -2147483648 ∧ s = -1)) := by
    rintro (h | ⟨hm, hneg⟩)
    · exact hs h
    · subst hneg; omega
  unfold idiv imul
  rw [iwrap_eq_self h1 h2, if_neg hc, Int.mul_tdiv_cancel a hs]

/-- Counterexample to C3 as stated: take `v = Vec2u::new(2^31, 0)` and
`s = 2`; `s` is nonzero and divides both components, yet `v * s` wraps to
the zero vector, so `(v * s) / s` is the zero vector, not `v`. -/
theorem scalar_mul_div_cancel_cex :
    (2 : Nat) ≠ 0 ∧ 2 ∣ (2147483648 : Nat) ∧ 2 ∣ (0 : Nat) ∧
    ((Vec2u.mk 2147483648 0).mulScalar 2).divScalar 2 ≠
      some (Vec2u.mk 2147483648 0) := by
  decide

/-- C3 (amended): for every vector `v` and nonzero scalar `s` of the
element kind such that each component of `v` is a multiple of `s`, each
component is in the element kind's range, and each product `v_i * s` is
representable without wraparound, `(v * s) / s == v`. -/
theorem scalar_mul_div_cancel :
    (∀ (v : Vec2u) (s : Nat), s ≠ 0 → s ∣ v.x → s ∣ v.y →
      v.x * s < 4294967296 → v.y * s < 4294967296 →
      (v.mulScalar s).divScalar s = some v) ∧
    (∀ (v : Vec2i) (s : Int), s ≠ 0 → s ∣ v.x → s ∣ v.y →
      -2147483648 ≤ v.x ∧ v.x < 2147483648 →
      -2147483648 ≤ v.y ∧ v.y < 2147483648 →
      -2147483648 ≤ v.x * s ∧ v.x * s < 2147483648 →
      -2147483648 ≤ v.y * s ∧ v.y * s < 2147483648 →
      (v.mulScalar s).divScalar s = some v) ∧
    (∀ (v : Vec3u) (s : Nat), s ≠ 0 → s ∣ v.x → s ∣ v.y → s ∣ v.z →
      v.x * s < 4294967296 → v.y * s < 4294967296 → v.z * s < 4294967296 →
      (v.mulScalar s).divScalar s = some v) ∧
    (∀ (v : Vec3i) (s : Int), s ≠ 0 → s ∣ v.x → s ∣ v.y → s ∣ v.z →
      -2147483648 ≤ v.x ∧ v.x < 2147483648 →
      -2147483648 ≤ v.y ∧ v.y < 2147483648 →
      -2147483648 ≤ v.z ∧ v.z < 2147483648 →
      -2147483648 ≤ v.x * s ∧ v.x * s < 2147483648 →
      -2147483648 ≤ v.y * s ∧ v.y * s < 2147483648 →
      -2147483648 ≤ v.z * s ∧ v.z * s < 2147483648 →
      (v.mulScalar s).divScalar s = some v) ∧
    (∀ (v : Vec4u) (s : Nat), s ≠ 0 → s ∣ v.x → s ∣ v.y → s ∣ v.z → s ∣ v.w →
      v.x * s < 4294967296 → v.y * s < 4294967296 → v.z * s < 4294967296 →
      v.w * s < 4294967296 →
      (v.mulScalar s).divScalar s = some v) ∧
    (∀ (v : Vec4i) (s : Int), s ≠ 0 → s ∣ v.x → s ∣ v.y → s ∣ v.z → s ∣ v.w →
      -2147483648 ≤ v.x ∧ v.x < 2147483648 →
      -2147483648 ≤ v.y ∧ v.y < 2147483648 →
      -2147483648 ≤ v.z ∧ v.z < 2147483648 →
      -2147483648 ≤ v.w ∧ v.w < 2147483648 →
      -2147483648 ≤ v.x * s ∧ v.x * s < 2147483648 →
      -2147483648 ≤ v.y * s ∧ v.y * s < 2147483648 →
      -2147483648 ≤ v.z * s ∧ v.z * s < 2147483648 →
      -2147483648 ≤ v.w * s ∧ v.w * s < 2147483648 →
      (v.mulScalar s).divScalar s = some v) := by
  refine ⟨?_, ?_, ?_, ?_, ?_, ?_⟩
  · rintro ⟨x, y⟩ s hs _ _ h1 h2
    simp only [Vec2u.mulScalar, Vec2u.divScalar]
    rw [udiv_umul_cancel hs h1, udiv_umul_cancel hs h2]
  · rintro ⟨x, y⟩ s hs _ _ hx hy h1 h2
    simp only [Vec2i.mulScalar, Vec2i.divScalar]
    rw [idiv_imul_cancel hs hx.2 h1.1 h1.2, idiv_imul_cancel hs hy.2 h2.1 h2.2]
  · rintro ⟨x, y, z⟩ s hs _ _ _ h1 h2 h3
    simp only [Vec3u.mulScalar, Vec3u.divScalar]
    rw [udiv_umul_cancel hs h1, udiv_umul_cancel hs h2, udiv_umul_cancel hs h3]
  · rintro ⟨x, y, z⟩ s hs _ _ _ hx hy hz h1 h2 h3
    simp only [Vec3i.mulScalar, Vec3i.divScalar]
    rw [idiv_imul_cancel hs hx.2 h1.1 h1.2, idiv_imul_cancel hs hy.2 h2.1 h2.2,
      idiv_imul_cancel hs hz.2 h3.1 h3.2]
  · rintro ⟨x, y, z, w⟩ s hs _ _ _ _ h1 h2 h3 h4
    simp only [Vec4u.mulScalar, Vec4u.divScalar]
    rw [udiv_umul_cancel hs h1, udiv_umul_cancel hs h2, udiv_umul_cancel hs h3,
      udiv_umul_cancel hs h4]
  · rintro ⟨x, y, z, w⟩ s hs _ _ _ _ hx hy hz hw h1 h2 h3 h4
    simp only [Vec4i.mulScalar, Vec4i.divScalar]
    rw [idiv_imul_cancel hs hx.2 h1.1 h1.2, idiv_imul_cancel hs hy.2 h2.1 h2.2,
      idiv_imul_cancel hs hz.2 h3.1 h3.2, idiv_imul_cancel hs hw.2 h4.1 h4.2]

/-- Witness for C3 (amended): concrete multiply-then-divide round-trips. -/
theorem scalar_mul_div_cancel_witness :
    ((Vec2u.mk 6 9).mulScalar 3).divScalar 3 = some (Vec2u.mk 6 9) ∧
    ((Vec2i.mk (-6) 9).mulScalar (-3)).divScalar (-3) =
      some (Vec2i.mk (-6) 9) :=
  ⟨scalar_mul_div_cancel.1 (Vec2u.mk 6 9) 3 (by decide) (by decide) (by decide)
      (by decide) (by decide),
   scalar_mul_div_cancel.2.1 (Vec2i.mk (-6) 9) (-3) (by decide) (by decide)
      (by decide) (by decide) (by decide) (by decide) (by decide)⟩
